import Mathlib

/-!
Shallow embedding of the reviewer-assignment / evaluation workflow of the
incubation backend (src/routes/applications.ts, src/routes/evaluations.ts,
and the `check_max_reviewers` trigger of the `application_reviewers`
migration).  Tables are lists of records, requests are pure functions from
a database state to a response and a new database state.  Timestamps are
integers (milliseconds); UUIDs are abstracted to natural numbers (the
uuid-regex guards of the handlers only reject malformed ids and are
orthogonal to every claim).  Outbound e-mail is fire-and-forget in the
source and is not part of the state.
-/

set_option maxRecDepth 16000

/-- `invite_status` column of `application_reviewers`. -/
inductive InviteStatus where
  | pending
  | accepted
  | rejected
deriving DecidableEq, Repr

/-- `status` column of `new_application`. -/
inductive AppStatus where
  | draft
  | pending
  | under_review
  | evaluated
  | approved
  | rejected
  | withdrawn
deriving DecidableEq, Repr

/-- `role` column of `user_profiles`. -/
inductive Role where
  | manager
  | reviewer
  | startup
deriving DecidableEq, Repr

/-- A row of `new_application` (the fields the embedded handlers read or write). -/
structure Application where
  id : Nat
  status : AppStatus
  resume_token_hash : Option String
  resume_token_expiry : Option Int
deriving DecidableEq, Repr

/-- A row of `user_profiles`. -/
structure UserProfile where
  id : Nat
  role : Role
deriving DecidableEq, Repr

/-- A row of `application_reviewers`.  `invite_status`, `invited_at` and
`responded_at` are nullable columns (added by a later migration), hence
`Option`; `evaluations.ts` defends against the null with `?? "pending"`. -/
structure Assignment where
  application_id : Nat
  reviewer_id : Nat
  invite_status : Option InviteStatus
  invited_at : Option Int
  responded_at : Option Int
deriving DecidableEq, Repr

/-- A row of `application_evaluations`.  Scores are stored as the strings the
handler sends to the store (`scoreForDb`); comments do not affect any claim. -/
structure Evaluation where
  application_id : Nat
  reviewer_id : Nat
  need_score : String
  novelty_score : String
  feasibility_scalability_score : String
  market_potential_score : String
  impact_score : String
deriving DecidableEq, Repr

/-- The persistent store. -/
structure DB where
  applications : List Application
  user_profiles : List UserProfile
  application_reviewers : List Assignment
  application_evaluations : List Evaluation
deriving DecidableEq, Repr

/-! ### Shared small helpers (JS string primitives used by the handlers) -/

/-- JS `String.prototype.trim` (on the whitespace characters Lean knows). -/
def jsTrim (s : String) : String :=
  String.mk (((s.data.dropWhile Char.isWhitespace).reverse.dropWhile Char.isWhitespace).reverse)

/-- JS `split(".")` on the character list of a string. -/
def splitOnDot (cs : List Char) : List (List Char) :=
  match cs with
  | [] => [[]]
  | c :: rest =>
    let r := splitOnDot rest
    if c = '.' then [] :: r
    else
      match r with
      | h :: t => (c :: h) :: t
      | [] => [[c]]

/-- Numeric value of a digit list (most significant first). -/
def natOfDigits (ds : List Char) : Nat :=
  ds.foldl (fun n c => 10 * n + (c.toNat - 48)) 0

/-- The exact decimal a JS numeric literal denotes: `num / 10 ^ p10`.
(The float rounding of the runtime is idealized away; every score in the
claims is an exact decimal.) -/
structure JSNum where
  num : Int
  p10 : Nat
deriving DecidableEq, Repr

/-- The rational value of a parsed number. -/
def JSNum.toRat (x : JSNum) : ℚ := (x.num : ℚ) / ((10 ^ x.p10 : ℕ) : ℚ)

/-- JS `parseFloat`: skip leading whitespace, optional sign, longest prefix of
the form `digits [. digits] [e|E [sign] digits]`; `none` is JS `NaN`
(no digits at all).  (`Infinity` literals are not modelled; no handler input
in the claims uses them.) -/
def jsParseFloat (s : String) : Option JSNum :=
  let cs := s.data.dropWhile Char.isWhitespace
  let (neg, cs1) :=
    match cs with
    | '-' :: t => (true, t)
    | '+' :: t => (false, t)
    | _ => (false, cs)
  let ip := cs1.takeWhile Char.isDigit
  let cs2 := cs1.dropWhile Char.isDigit
  let (fp, cs3) :=
    match cs2 with
    | '.' :: t => (t.takeWhile Char.isDigit, t.dropWhile Char.isDigit)
    | _ => ([], cs2)
  if ip.isEmpty && fp.isEmpty then none
  else
    let mag : Nat := natOfDigits ip * 10 ^ fp.length + natOfDigits fp
    let mant : Int := if neg then -(mag : Int) else (mag : Int)
    let e : Int :=
      match cs3 with
      | c :: t =>
        if c = 'e' ∨ c = 'E' then
          let (eneg, t1) :=
            match t with
            | '-' :: u => (true, u)
            | '+' :: u => (false, u)
            | _ => (false, t)
          let ed := t1.takeWhile Char.isDigit
          if ed.isEmpty then 0
          else if eneg then -(natOfDigits ed : Int) else (natOfDigits ed : Int)
        else 0
      | [] => 0
    if 0 ≤ e then some { num := mant * (10 : Int) ^ e.toNat, p10 := fp.length }
    else some { num := mant, p10 := fp.length + (-e).toNat }

/-! ### applications.ts -/

/-- `REVIEWER_INVITE_EXPIRE_DAYS` (applications.ts line 12). -/
def REVIEWER_INVITE_EXPIRE_DAYS : Int := 2

/-- Milliseconds in a day (`Date.setDate` arithmetic). -/
def msPerDay : Int := 86400000

/-- The where-clause of the expiry sweep: `invite_status = 'pending' AND
invited_at < cutoff` (a SQL null `invited_at` matches no `<` comparison). -/
def inviteExpired (cutoff : Int) (a : Assignment) : Bool :=
  a.invite_status == some .pending &&
    match a.invited_at with
    | some t => t < cutoff
    | none => false

/-- `expirePendingReviewerInvites` (applications.ts lines 18–93): select the
pending rows older than `now − 2 days`, update each to `rejected` with
`responded_at = now`, return the number of updated rows.  The source takes
`new Date()` twice a few statements apart; the single-request embedding uses
one `now` for both cutoff and `responded_at`.  The manager notification loop
does not touch the store. -/
def expirePendingReviewerInvites (db : DB) (now : Int) : Nat × DB :=
  let cutoff := now - REVIEWER_INVITE_EXPIRE_DAYS * msPerDay
  let pendingRows := db.application_reviewers.filter (inviteExpired cutoff)
  if pendingRows.isEmpty then (0, db)
  else
    let updatedRows := db.application_reviewers.map fun a =>
      if inviteExpired cutoff a then
        { a with invite_status := some .rejected, responded_at := some now }
      else a
    (pendingRows.length, { db with application_reviewers := updatedRows })

/-- Response of `POST /:id/invite-reviewer`, one constructor per return site. -/
inductive InviteResp where
  | appNotFound
  | notPendingState
  | reviewerNotFound
  | alreadyAssigned
  | insertFailed
  | invited
deriving DecidableEq, Repr

/-- HTTP status of each `invite-reviewer` response. -/
def InviteResp.status : InviteResp → Nat
  | .appNotFound => 404
  | .notPendingState => 400
  | .reviewerNotFound => 400
  | .alreadyAssigned => 409
  | .insertFailed => 500
  | .invited => 201

/-- `POST /:id/invite-reviewer` (applications.ts lines 663–767).  The handler
itself never counts assignments; the `check_max_reviewers` BEFORE INSERT
trigger (migration 20240101000002, second part) raises when the application
already has 5 rows, the insert errors, and the handler returns the 500
"Failed to assign reviewer" branch. -/
def inviteReviewer (db : DB) (applicationId reviewerId : Nat) (now : Int) :
    InviteResp × DB :=
  match db.applications.find? (fun a => a.id == applicationId) with
  | none => (.appNotFound, db)
  | some application =>
    if application.status != .pending then (.notPendingState, db)
    else
      match db.user_profiles.find?
          (fun p => p.id == reviewerId && p.role == .reviewer) with
      | none => (.reviewerNotFound, db)
      | some _ =>
        match db.application_reviewers.find?
            (fun a => a.application_id == applicationId && a.reviewer_id == reviewerId) with
        | some _ => (.alreadyAssigned, db)
        | none =>
          if 5 ≤ (db.application_reviewers.filter
              (fun a => a.application_id == applicationId)).length then
            (.insertFailed, db)
          else
            (.invited,
              { db with application_reviewers := db.application_reviewers ++
                  [{ application_id := applicationId, reviewer_id := reviewerId,
                     invite_status := some .pending, invited_at := some now,
                     responded_at := none }] })

/-- Response of `POST /:id/reviewer-respond`. -/
inductive RespondResp where
  | unauthorized
  | responded (accepted : Bool)
deriving DecidableEq, Repr

/-- HTTP status of each `reviewer-respond` response. -/
def RespondResp.status : RespondResp → Nat
  | .unauthorized => 401
  | .responded _ => 200

/-- The `acceptedRows` count of the respond handler: assignments of the
application with `invite_status = 'accepted'`. -/
def countAccepted (db : DB) (applicationId : Nat) : Nat :=
  (db.application_reviewers.filter fun a =>
    a.application_id == applicationId && a.invite_status == some .accepted).length

/-- The UPDATE of the respond handler (applications.ts lines 802–816): every
row of the (application, reviewer) pair — whatever its current
`invite_status` — gets the new status and `responded_at = now`. -/
def respondUpdate (db : DB) (applicationId reviewerId : Nat) (accept : Bool)
    (now : Int) : DB :=
  { db with application_reviewers := db.application_reviewers.map fun a =>
      if a.application_id == applicationId && a.reviewer_id == reviewerId then
        { a with
          invite_status := some (if accept then .accepted else .rejected),
          responded_at := some now }
      else a }

/-- The accept branch of the respond handler (applications.ts lines 818–831):
once ≥ 2 assignments of the application are `accepted`, set its status to
`under_review`. -/
def promoteUnderReview (db : DB) (applicationId : Nat) : DB :=
  if 2 ≤ countAccepted db applicationId then
    { db with applications := db.applications.map fun ap =>
        if ap.id == applicationId then { ap with status := .under_review } else ap }
  else db

/-- `POST /:id/reviewer-respond` (applications.ts lines 773–874).  After
resolving the caller (`authUser`, 401 when absent), the handler runs an
unconditional UPDATE on the (application, reviewer) pair — no
`invite_status = 'pending'` filter and no zero-row check — then, on accept,
sets the application to `under_review` once ≥ 2 assignments are accepted,
and always answers 200. -/
def reviewerRespond (db : DB) (applicationId : Nat) (authUser : Option Nat)
    (accept : Bool) (now : Int) : RespondResp × DB :=
  match authUser with
  | none => (.unauthorized, db)
  | some reviewerId =>
    let db1 := respondUpdate db applicationId reviewerId accept now
    let db2 := if accept then promoteUnderReview db1 applicationId else db1
    (.responded accept, db2)

/-- The draft record returned by `GET /resume`: the row with
`resume_token_hash` and `resume_token_expiry` destructured away. -/
structure SafeDraft where
  id : Nat
  status : AppStatus
deriving DecidableEq, Repr

/-- Response of `GET /resume`. -/
inductive ResumeResp where
  | missingToken
  | draftNotFound
  | linkExpired
  | ok (draft : SafeDraft)
deriving DecidableEq, Repr

/-- HTTP status of each `resume` response. -/
def ResumeResp.status : ResumeResp → Nat
  | .missingToken => 400
  | .draftNotFound => 404
  | .linkExpired => 410
  | .ok _ => 200

/-- `GET /resume` (applications.ts lines 971–1025).  `hashToken` is SHA-256
hex in the source; the embedding abstracts it as a function parameter.
`.single()` errors (PGRST116 → 404) unless the filtered query returns exactly
one row; the expiry gate fires only when `resume_token_expiry` is non-null
and in the past; the success payload strips the hash and expiry columns. -/
def resumeDraft (hash : String → String) (db : DB) (token : String) (now : Int) :
    ResumeResp :=
  let token := jsTrim token
  if token = "" then .missingToken
  else
    let tokenHash := hash token
    match db.applications.filter
        (fun a => a.resume_token_hash == some tokenHash && a.status == .draft) with
    | [draft] =>
      if (match draft.resume_token_expiry with
          | some e => decide (e < now)
          | none => false) then .linkExpired
      else .ok { id := draft.id, status := draft.status }
    | _ => .draftNotFound

/-- A JSON value as the draft handler sees one request field. -/
inductive JSVal where
  | str (s : String)
  | boolean (b : Bool)
  | jnum (n : Int)
  | jsNull
  | undefined
deriving DecidableEq, Repr

/-- `const yesNo = (v) => (v === "Yes" ? "Yes" : "No")` of `buildDraftPayload`
(applications.ts line 103); `===` against a string literal holds only for the
identical string. -/
def yesNo (v : JSVal) : String :=
  if v = .str "Yes" then "Yes" else "No"

/-- The yes/no request fields of `buildDraftPayload`. -/
structure DraftYesNoFields where
  isIITM : JSVal
  priorEntrepreneurshipExperience : JSVal
  teamPriorEntrepreneurshipExperience : JSVal
  mcaRegistered : JSVal
  hasIntellectualProperty : JSVal
  hasPotentialIntellectualProperty : JSVal
  hasProofOfConcept : JSVal
  hasPatentsOrPapers : JSVal
deriving DecidableEq, Repr

/-- The corresponding persisted columns of the draft payload. -/
structure DraftYesNoPayload where
  is_iitm : String
  prior_entrepreneurship_experience : String
  team_prior_entrepreneurship_experience : String
  mca_registered : String
  has_intellectual_property : String
  has_potential_intellectual_property : String
  has_proof_of_concept : String
  has_patents_or_papers : String
deriving DecidableEq, Repr

/-- The yes/no normalization performed by `buildDraftPayload`
(applications.ts lines 102–212) on its eight boolean-like fields. -/
def buildDraftPayloadYesNo (body : DraftYesNoFields) : DraftYesNoPayload where
  is_iitm := yesNo body.isIITM
  prior_entrepreneurship_experience := yesNo body.priorEntrepreneurshipExperience
  team_prior_entrepreneurship_experience := yesNo body.teamPriorEntrepreneurshipExperience
  mca_registered := yesNo body.mcaRegistered
  has_intellectual_property := yesNo body.hasIntellectualProperty
  has_potential_intellectual_property := yesNo body.hasPotentialIntellectualProperty
  has_proof_of_concept := yesNo body.hasProofOfConcept
  has_patents_or_papers := yesNo body.hasPatentsOrPapers

/-- `status` of an application by id (the first matching row, as `.single()`
and `.eq("id", …)` address it). -/
def appStatus (db : DB) (applicationId : Nat) : Option AppStatus :=
  (db.applications.find? (fun a => a.id == applicationId)).map (·.status)

/-! ### evaluations.ts (latest revision of the file) -/

/-- Response of the evaluation routes, one constructor per return site the
claims touch. -/
inductive EvalResp where
  | unauthorized
  | emptyScore
  | scoreOutOfRange
  | tooManyDecimals
  | notAssigned
  | declinedAssignment
  | acceptFirst
  | conflictExists
  | created
  | saved (existedBefore : Bool)
deriving DecidableEq, Repr

/-- HTTP status of each evaluation response. -/
def EvalResp.status : EvalResp → Nat
  | .unauthorized => 401
  | .emptyScore => 400
  | .scoreOutOfRange => 400
  | .tooManyDecimals => 400
  | .notAssigned => 403
  | .declinedAssignment => 403
  | .acceptFirst => 403
  | .conflictExists => 409
  | .created => 201
  | .saved _ => 200

/-- Per-score validation of both evaluation routes: `parseFloat`, the
`isNaN || < 0 || > 10` branch, then the `split(".")` check that the literal
has at most 2 digits after a single dot. -/
def scoreCheck (s : String) : Option EvalResp :=
  match jsParseFloat s with
  | none => some .scoreOutOfRange
  | some numScore =>
    if numScore.num < 0 ∨ 10 * (10 : Int) ^ numScore.p10 < numScore.num then
      some .scoreOutOfRange
    else
      match splitOnDot s.data with
      | [_, frac] => if 2 < frac.length then some .tooManyDecimals else none
      | _ => none

/-- The two validation loops of the handlers: every score field must be
non-blank (`String(v).trim() !== ""`), then each score in order passes
`scoreCheck`. -/
def scoreValidationError (scores : List String) : Option EvalResp :=
  if scores.any (fun s => jsTrim s = "") then some .emptyScore
  else scores.findSome? scoreCheck

/-- `scoreForDb` (evaluations.ts): a non-blank string that parses keeps its
trimmed literal; anything else would be `String(NaN)`. -/
def scoreForDb (s : String) : String :=
  if jsTrim s ≠ "" ∧ (jsParseFloat s).isSome then jsTrim s else "NaN"

/-- The assignment row of a (application, reviewer) pair. -/
def findAssignment (db : DB) (applicationId reviewerId : Nat) : Option Assignment :=
  db.application_reviewers.find?
    (fun a => a.application_id == applicationId && a.reviewer_id == reviewerId)

/-- Body of `POST /api/evaluations` (comments elided — no claim reads them). -/
structure PostEvalBody where
  applicationId : Nat
  needScore : String
  noveltyScore : String
  feasibilityScalabilityScore : String
  marketPotentialScore : String
  impactScore : String
deriving DecidableEq, Repr

/-- The five scores of a POST body, in the order the handler checks them. -/
def postScores (b : PostEvalBody) : List String :=
  [b.needScore, b.noveltyScore, b.feasibilityScalabilityScore,
   b.marketPotentialScore, b.impactScore]

/-- The row a successful POST inserts. -/
def evalRowOf (applicationId reviewerId : Nat) (b : PostEvalBody) : Evaluation where
  application_id := applicationId
  reviewer_id := reviewerId
  need_score := scoreForDb b.needScore
  novelty_score := scoreForDb b.noveltyScore
  feasibility_scalability_score := scoreForDb b.feasibilityScalabilityScore
  market_potential_score := scoreForDb b.marketPotentialScore
  impact_score := scoreForDb b.impactScore

/-- `POST /api/evaluations` (evaluations.ts lines 827–1040): header auth,
score validation, assignment must exist with `invite_status ?? 'pending'`
equal to `accepted`, then a plain insert whose unique-pair violation (23505)
is surfaced as 409.  This route runs no completion check. -/
def postEvaluation (db : DB) (reviewerHeader : Option Nat) (b : PostEvalBody) :
    EvalResp × DB :=
  match reviewerHeader with
  | none => (.unauthorized, db)
  | some reviewerId =>
    match scoreValidationError (postScores b) with
    | some e => (e, db)
    | none =>
      match findAssignment db b.applicationId reviewerId with
      | none => (.notAssigned, db)
      | some assignment =>
        let inviteStatus := assignment.invite_status.getD .pending
        if inviteStatus ≠ .accepted then
          if inviteStatus = .rejected then (.declinedAssignment, db)
          else (.acceptFirst, db)
        else
          match db.application_evaluations.find?
              (fun e => e.application_id == b.applicationId &&
                e.reviewer_id == reviewerId) with
          | some _ => (.conflictExists, db)
          | none =>
            (.created,
              { db with application_evaluations :=
                  db.application_evaluations ++ [evalRowOf b.applicationId reviewerId b] })

/-- Body of `PUT /api/evaluations/application/:applicationId`. -/
structure PutEvalBody where
  needScore : String
  noveltyScore : String
  feasibilityScalabilityScore : String
  marketPotentialScore : String
  impactScore : String
deriving DecidableEq, Repr

/-- The five scores of a PUT body, in handler order. -/
def putScores (b : PutEvalBody) : List String :=
  [b.needScore, b.noveltyScore, b.feasibilityScalabilityScore,
   b.marketPotentialScore, b.impactScore]

/-- The row the PUT upsert writes. -/
def putEvalRowOf (applicationId reviewerId : Nat) (b : PutEvalBody) : Evaluation where
  application_id := applicationId
  reviewer_id := reviewerId
  need_score := scoreForDb b.needScore
  novelty_score := scoreForDb b.noveltyScore
  feasibility_scalability_score := scoreForDb b.feasibilityScalabilityScore
  market_potential_score := scoreForDb b.marketPotentialScore
  impact_score := scoreForDb b.impactScore

/-- The distinct-reviewer evaluation count of the completion check
(`new Set(evalsForApp.map(e => e.reviewer_id)).size`). -/
def distinctEvalReviewers (db : DB) (applicationId : Nat) : Nat :=
  ((db.application_evaluations.filter
    (fun e => e.application_id == applicationId)).map (·.reviewer_id)).dedup.length

/-- The completion check run at the end of the PUT upsert (evaluations.ts
lines 1516–1553): with `A` accepted assignments and `E` distinct evaluating
reviewers, set the application to `evaluated` when `A > 0 ∧ E ≥ A`. -/
def completionCheck (db : DB) (applicationId : Nat) : DB :=
  if 0 < countAccepted db applicationId ∧
      countAccepted db applicationId ≤ distinctEvalReviewers db applicationId then
    { db with applications := db.applications.map fun ap =>
        if ap.id == applicationId then { ap with status := .evaluated } else ap }
  else db

/-- The evaluation row already stored for the pair, if any (`existing`). -/
def existingEvaluation (db : DB) (applicationId reviewerId : Nat) : Option Evaluation :=
  db.application_evaluations.find?
    (fun e => e.application_id == applicationId && e.reviewer_id == reviewerId)

/-- `runUpsert` of the PUT handler: overwrite the existing row of the pair or
insert a fresh one. -/
def runUpsert (db : DB) (applicationId reviewerId : Nat) (b : PutEvalBody) : DB :=
  let newRow := putEvalRowOf applicationId reviewerId b
  match existingEvaluation db applicationId reviewerId with
  | some _ =>
    { db with application_evaluations := db.application_evaluations.map fun e =>
        if e.application_id == applicationId && e.reviewer_id == reviewerId then
          newRow
        else e }
  | none =>
    { db with application_evaluations := db.application_evaluations ++ [newRow] }

/-- `PUT /api/evaluations/application/:applicationId` (evaluations.ts lines
1224–1572): header auth, the same score validation, the accepted-assignment
gate, then update-or-insert of the (application, reviewer) row followed by
the completion check; both sub-paths answer 200. -/
def putEvaluationUpsert (db : DB) (reviewerHeader : Option Nat)
    (applicationId : Nat) (b : PutEvalBody) : EvalResp × DB :=
  match reviewerHeader with
  | none => (.unauthorized, db)
  | some reviewerId =>
    match scoreValidationError (putScores b) with
    | some e => (e, db)
    | none =>
      match findAssignment db applicationId reviewerId with
      | none => (.notAssigned, db)
      | some assignment =>
        let inviteStatus := assignment.invite_status.getD .pending
        if inviteStatus ≠ .accepted then
          if inviteStatus = .rejected then (.declinedAssignment, db)
          else (.acceptFirst, db)
        else
          let db1 := runUpsert db applicationId reviewerId b
          let db2 := completionCheck db1 applicationId
          ((.saved (existingEvaluation db applicationId reviewerId).isSome), db2)

/-- Modelled from the spec: "a numeric value in [0, 10] with at most 2
decimal digits of precision" — the precision half, as a predicate on the
parsed numeric value.  Used only to compare the spec's notion of precision
with the code's literal-string check. -/
def atMostTwoDecimalDigits (q : ℚ) : Prop := (q * 100).den = 1

/-! ### Helper lemmas -/

/-- `yesNo` yields `"Yes"` exactly on the literal string `"Yes"`, and nothing
but `"Yes"`/`"No"`. -/
theorem yesNo_spec (v : JSVal) :
    (yesNo v = "Yes" ↔ v = .str "Yes") ∧ (yesNo v = "Yes" ∨ yesNo v = "No") := by
  by_cases h : v = .str "Yes" <;> simp [yesNo, h]

/-- Updating the status of the rows matching `aid` commutes with looking the
application up by `aid`. -/
theorem map_eq_self_of_fix {α : Type} (l : List α) (f : α → α)
    (h : ∀ a ∈ l, f a = a) : l.map f = l := by
  induction l with
  | nil => rfl
  | cons hd tl ih =>
    simp only [List.map_cons, h hd (List.mem_cons_self hd tl)]
    rw [ih (fun a ha => h a (List.mem_cons_of_mem hd ha))]

theorem find?_update_status (l : List Application) (aid : Nat) (s : AppStatus) :
    (l.map fun ap => if ap.id == aid then { ap with status := s } else ap).find?
        (fun a => a.id == aid)
      = (l.find? (fun a => a.id == aid)).map (fun ap => { ap with status := s }) := by
  induction l with
  | nil => rfl
  | cons hd tl ih =>
    simp only [List.map_cons]
    by_cases h : hd.id = aid
    · rw [List.find?_cons_of_pos, List.find?_cons_of_pos]
      · simp [h]
      · simp [h]
      · simp [h]
    · rw [List.find?_cons_of_neg, List.find?_cons_of_neg, ih]
      · simp [h]
      · simp [h]

/-- The assignment table produced by one expiry sweep, row by row. -/
theorem expire_assignments_eq (db : DB) (now : Int) :
    ((expirePendingReviewerInvites db now).2).application_reviewers
      = db.application_reviewers.map (fun a =>
          if inviteExpired (now - REVIEWER_INVITE_EXPIRE_DAYS * msPerDay) a then
            { a with invite_status := some .rejected, responded_at := some now }
          else a) := by
  unfold expirePendingReviewerInvites
  by_cases h : (db.application_reviewers.filter
      (inviteExpired (now - REVIEWER_INVITE_EXPIRE_DAYS * msPerDay))).isEmpty
  · simp only [h, if_pos]
    have hall : ∀ a ∈ db.application_reviewers,
        ¬ inviteExpired (now - REVIEWER_INVITE_EXPIRE_DAYS * msPerDay) a = true := by
      rw [List.isEmpty_iff, List.filter_eq_nil_iff] at h
      exact h
    have hmap : db.application_reviewers.map (fun a =>
        if inviteExpired (now - REVIEWER_INVITE_EXPIRE_DAYS * msPerDay) a then
          { a with invite_status := some .rejected, responded_at := some now }
        else a) = db.application_reviewers := by
      apply map_eq_self_of_fix
      intro a ha
      simp [hall a ha]
    rw [hmap]
  · simp [h]

/-- The sweep leaves the other tables alone. -/
theorem expire_other_tables (db : DB) (now : Int) :
    ((expirePendingReviewerInvites db now).2).applications = db.applications ∧
    ((expirePendingReviewerInvites db now).2).application_evaluations
        = db.application_evaluations ∧
    ((expirePendingReviewerInvites db now).2).user_profiles = db.user_profiles := by
  unfold expirePendingReviewerInvites
  by_cases h : (db.application_reviewers.filter
      (inviteExpired (now - REVIEWER_INVITE_EXPIRE_DAYS * msPerDay))).isEmpty <;>
    simp [h]

/-- The sweep reports the number of rows its where-clause selected. -/
theorem expire_count_eq (db : DB) (now : Int) :
    (expirePendingReviewerInvites db now).1
      = (db.application_reviewers.filter
          (inviteExpired (now - REVIEWER_INVITE_EXPIRE_DAYS * msPerDay))).length := by
  unfold expirePendingReviewerInvites
  by_cases h : (db.application_reviewers.filter
      (inviteExpired (now - REVIEWER_INVITE_EXPIRE_DAYS * msPerDay))).isEmpty
  · rw [List.isEmpty_iff] at h
    simp [h]
  · simp [h]

/-- `scoreCheck` only ever reports a range or a decimal-precision failure. -/
theorem scoreCheck_cases (s : String) (r : EvalResp) (h : scoreCheck s = some r) :
    r = .scoreOutOfRange ∨ r = .tooManyDecimals := by
  unfold scoreCheck at h
  split at h
  · injection h with h
    exact Or.inl h.symm
  · split at h
    · injection h with h
      exact Or.inl h.symm
    · split at h
      · split at h
        · injection h with h
          exact Or.inr h.symm
        · cases h
      · cases h

/-- `scoreValidationError` only ever reports one of the three 400 failures. -/
theorem scoreValidationError_cases (scores : List String) (r : EvalResp)
    (h : scoreValidationError scores = some r) :
    r = .emptyScore ∨ r = .scoreOutOfRange ∨ r = .tooManyDecimals := by
  unfold scoreValidationError at h
  split at h
  · injection h with h
    exact Or.inl h.symm
  · obtain ⟨l1, s, l2, _, hsc, _⟩ := List.findSome?_eq_some_iff.mp h
    rcases scoreCheck_cases s r hsc with h1 | h1
    · exact Or.inr (Or.inl h1)
    · exact Or.inr (Or.inr h1)

/-- The completion check only ever writes the applications table. -/
theorem completionCheck_tables (db : DB) (aid : Nat) :
    (completionCheck db aid).application_reviewers = db.application_reviewers ∧
    (completionCheck db aid).application_evaluations = db.application_evaluations ∧
    (completionCheck db aid).user_profiles = db.user_profiles := by
  unfold completionCheck
  split <;> simp

/-- `countAccepted` is unchanged by a completion check. -/
theorem countAccepted_completionCheck (db : DB) (aid x : Nat) :
    countAccepted (completionCheck db aid) x = countAccepted db x := by
  unfold countAccepted
  rw [(completionCheck_tables db aid).1]

/-- `distinctEvalReviewers` is unchanged by a completion check. -/
theorem distinctEvalReviewers_completionCheck (db : DB) (aid x : Nat) :
    distinctEvalReviewers (completionCheck db aid) x = distinctEvalReviewers db x := by
  unfold distinctEvalReviewers
  rw [(completionCheck_tables db aid).2.1]

/-- Re-running the completion check is a no-op. -/
theorem completionCheck_idem (db : DB) (aid : Nat) :
    completionCheck (completionCheck db aid) aid = completionCheck db aid := by
  by_cases hc : 0 < countAccepted db aid ∧
      countAccepted db aid ≤ distinctEvalReviewers db aid
  · conv_lhs => rw [completionCheck]
    rw [countAccepted_completionCheck, distinctEvalReviewers_completionCheck,
      if_pos hc]
    conv_lhs => rw [completionCheck, if_pos hc]
    conv_rhs => rw [completionCheck, if_pos hc]
    simp only [List.map_map]
    congr 1
    apply List.map_congr_left
    intro ap _
    by_cases h : ap.id = aid <;> simp [h]
  · have h0 : completionCheck db aid = db := by
      rw [completionCheck, if_neg hc]
    rw [h0, h0]

/-- The upsert write leaves every table but the evaluations alone. -/
theorem runUpsert_tables (db : DB) (aid rid : Nat) (b : PutEvalBody) :
    (runUpsert db aid rid b).applications = db.applications ∧
    (runUpsert db aid rid b).application_reviewers = db.application_reviewers ∧
    (runUpsert db aid rid b).user_profiles = db.user_profiles := by
  unfold runUpsert
  cases existingEvaluation db aid rid <;> simp

/-- A 200 answer of the PUT route pins the final state down to a completion
check over the upsert write. -/
theorem putUpsert_saved_shape (db : DB) (rid aid : Nat) (b : PutEvalBody) (ex : Bool)
    (hr : (putEvaluationUpsert db (some rid) aid b).1 = .saved ex) :
    (putEvaluationUpsert db (some rid) aid b).2
      = completionCheck (runUpsert db aid rid b) aid := by
  simp only [putEvaluationUpsert] at hr ⊢
  cases hval : scoreValidationError (putScores b) with
  | some e =>
    rcases scoreValidationError_cases _ _ hval with h | h | h <;> subst h <;>
      rw [hval] at hr <;> simp at hr
  | none =>
    cases hasg : findAssignment db aid rid with
    | none =>
      rw [hval, hasg] at hr
      simp at hr
    | some assignment =>
      by_cases hacc : assignment.invite_status.getD .pending = .accepted
      · simp [hacc]
      · rw [hval, hasg] at hr
        simp only [hacc] at hr
        by_cases hrj : assignment.invite_status.getD .pending = .rejected <;>
          simp [hacc, hrj] at hr

/-- The respond UPDATE never touches the applications table. -/
theorem respondUpdate_applications (db : DB) (aid rid : Nat) (accept : Bool)
    (now : Int) :
    (respondUpdate db aid rid accept now).applications = db.applications := rfl

/-- Promotion to `under_review` never touches the assignments table. -/
theorem promoteUnderReview_reviewers (db : DB) (aid : Nat) :
    (promoteUnderReview db aid).application_reviewers = db.application_reviewers := by
  unfold promoteUnderReview
  split <;> rfl

/-- `countAccepted` is unchanged by the promotion. -/
theorem countAccepted_promote (db : DB) (aid x : Nat) :
    countAccepted (promoteUnderReview db aid) x = countAccepted db x := by
  unfold countAccepted
  rw [promoteUnderReview_reviewers]

/-- The final state of an authenticated respond request. -/
theorem reviewerRespond_p2 (db : DB) (aid rid : Nat) (accept : Bool) (now : Int) :
    (reviewerRespond db aid (some rid) accept now).2
      = (if accept then promoteUnderReview (respondUpdate db aid rid accept now) aid
         else respondUpdate db aid rid accept now) := rfl

/-- When the acceptance quorum is met, the promotion sets `under_review`. -/
theorem promoteUnderReview_status_of_le (db : DB) (aid : Nat)
    (h2 : 2 ≤ countAccepted db aid)
    (happ : (db.applications.find? (fun a => a.id == aid)).isSome) :
    appStatus (promoteUnderReview db aid) aid = some .under_review := by
  unfold promoteUnderReview
  rw [if_pos h2]
  unfold appStatus
  obtain ⟨ap, hap⟩ := Option.isSome_iff_exists.mp happ
  show ((db.applications.map fun a =>
      if a.id == aid then { a with status := .under_review } else a).find?
      (fun a => a.id == aid)).map (·.status) = some .under_review
  rw [find?_update_status, hap]
  rfl

/-- Below the quorum the promotion is a no-op. -/
theorem promoteUnderReview_of_lt (db : DB) (aid : Nat)
    (h2 : ¬ 2 ≤ countAccepted db aid) : promoteUnderReview db aid = db := by
  unfold promoteUnderReview
  rw [if_neg h2]

/-- `appStatus` only reads the applications table. -/
theorem appStatus_congr (db db2 : DB) (h : db.applications = db2.applications)
    (aid : Nat) : appStatus db aid = appStatus db2 aid := by
  unfold appStatus
  rw [h]

/-- When the completion condition holds, the check sets `evaluated`. -/
theorem completionCheck_status_of_cond (db : DB) (aid : Nat)
    (hc : 0 < countAccepted db aid ∧
      countAccepted db aid ≤ distinctEvalReviewers db aid)
    (happ : (db.applications.find? (fun a => a.id == aid)).isSome) :
    appStatus (completionCheck db aid) aid = some .evaluated := by
  unfold completionCheck
  rw [if_pos hc]
  unfold appStatus
  obtain ⟨ap, hap⟩ := Option.isSome_iff_exists.mp happ
  show ((db.applications.map fun a =>
      if a.id == aid then { a with status := .evaluated } else a).find?
      (fun a => a.id == aid)).map (·.status) = some .evaluated
  rw [find?_update_status, hap]
  rfl

/-- When the completion condition fails, the check is a no-op. -/
theorem completionCheck_of_not_cond (db : DB) (aid : Nat)
    (hc : ¬ (0 < countAccepted db aid ∧
      countAccepted db aid ≤ distinctEvalReviewers db aid)) :
    completionCheck db aid = db := by
  unfold completionCheck
  rw [if_neg hc]

/-- Every branch of the invite handler leaves the applications table alone. -/
theorem inviteReviewer_applications (db : DB) (aid rid : Nat) (now : Int) :
    ((inviteReviewer db aid rid now).2).applications = db.applications := by
  unfold inviteReviewer
  repeat first | rfl | split

/-- The invite handler never modifies an existing assignment row. -/
theorem inviteReviewer_assignments_stable (db : DB) (aid rid : Nat) (now : Int)
    (i : Nat) (a : Assignment) (h : db.application_reviewers.get? i = some a) :
    ((inviteReviewer db aid rid now).2).application_reviewers.get? i = some a := by
  have hlt : i < db.application_reviewers.length :=
    (List.get?_eq_some.mp h).1
  unfold inviteReviewer
  repeat first | exact h | rw [List.get?_append hlt]; exact h | split

/-! ### Claim theorems -/

/-- C10: `buildDraftPayload` persists each of the eight yes/no fields as the
string `"Yes"` exactly when the request value is the literal string `"Yes"`;
every other value — `true`, a differently-cased `"yes"`, a missing field —
is persisted as `"No"`, and nothing but `"Yes"`/`"No"` is ever stored. -/
theorem C10_draft_yes_no_normalization (body : DraftYesNoFields) :
    ((buildDraftPayloadYesNo body).is_iitm = "Yes" ↔ body.isIITM = .str "Yes") ∧
    ((buildDraftPayloadYesNo body).is_iitm = "Yes" ∨
      (buildDraftPayloadYesNo body).is_iitm = "No") ∧
    ((buildDraftPayloadYesNo body).prior_entrepreneurship_experience = "Yes" ↔
      body.priorEntrepreneurshipExperience = .str "Yes") ∧
    ((buildDraftPayloadYesNo body).prior_entrepreneurship_experience = "Yes" ∨
      (buildDraftPayloadYesNo body).prior_entrepreneurship_experience = "No") ∧
    ((buildDraftPayloadYesNo body).team_prior_entrepreneurship_experience = "Yes" ↔
      body.teamPriorEntrepreneurshipExperience = .str "Yes") ∧
    ((buildDraftPayloadYesNo body).team_prior_entrepreneurship_experience = "Yes" ∨
      (buildDraftPayloadYesNo body).team_prior_entrepreneurship_experience = "No") ∧
    ((buildDraftPayloadYesNo body).mca_registered = "Yes" ↔
      body.mcaRegistered = .str "Yes") ∧
    ((buildDraftPayloadYesNo body).mca_registered = "Yes" ∨
      (buildDraftPayloadYesNo body).mca_registered = "No") ∧
    ((buildDraftPayloadYesNo body).has_intellectual_property = "Yes" ↔
      body.hasIntellectualProperty = .str "Yes") ∧
    ((buildDraftPayloadYesNo body).has_intellectual_property = "Yes" ∨
      (buildDraftPayloadYesNo body).has_intellectual_property = "No") ∧
    ((buildDraftPayloadYesNo body).has_potential_intellectual_property = "Yes" ↔
      body.hasPotentialIntellectualProperty = .str "Yes") ∧
    ((buildDraftPayloadYesNo body).has_potential_intellectual_property = "Yes" ∨
      (buildDraftPayloadYesNo body).has_potential_intellectual_property = "No") ∧
    ((buildDraftPayloadYesNo body).has_proof_of_concept = "Yes" ↔
      body.hasProofOfConcept = .str "Yes") ∧
    ((buildDraftPayloadYesNo body).has_proof_of_concept = "Yes" ∨
      (buildDraftPayloadYesNo body).has_proof_of_concept = "No") ∧
    ((buildDraftPayloadYesNo body).has_patents_or_papers = "Yes" ↔
      body.hasPatentsOrPapers = .str "Yes") ∧
    ((buildDraftPayloadYesNo body).has_patents_or_papers = "Yes" ∨
      (buildDraftPayloadYesNo body).has_patents_or_papers = "No") :=
  ⟨(yesNo_spec _).1, (yesNo_spec _).2, (yesNo_spec _).1, (yesNo_spec _).2,
   (yesNo_spec _).1, (yesNo_spec _).2, (yesNo_spec _).1, (yesNo_spec _).2,
   (yesNo_spec _).1, (yesNo_spec _).2, (yesNo_spec _).1, (yesNo_spec _).2,
   (yesNo_spec _).1, (yesNo_spec _).2, (yesNo_spec _).1, (yesNo_spec _).2⟩

/-- C8: one sweep run transitions exactly the assignments that are `pending`
with `invited_at` strictly older than `now − 2 days` — each becoming
`rejected` with `responded_at = now` — returns the number of transitioned
rows, and leaves every other assignment and every other table unchanged. -/
theorem C8_expiry_sweep_exact (db : DB) (now : Int) :
    (expirePendingReviewerInvites db now).1
        = (db.application_reviewers.filter
            (inviteExpired (now - REVIEWER_INVITE_EXPIRE_DAYS * msPerDay))).length ∧
    ((expirePendingReviewerInvites db now).2).application_reviewers
        = db.application_reviewers.map (fun a =>
            if inviteExpired (now - REVIEWER_INVITE_EXPIRE_DAYS * msPerDay) a then
              { a with invite_status := some .rejected, responded_at := some now }
            else a) ∧
    ((expirePendingReviewerInvites db now).2).applications = db.applications ∧
    ((expirePendingReviewerInvites db now).2).application_evaluations
        = db.application_evaluations :=
  ⟨expire_count_eq db now, expire_assignments_eq db now,
   (expire_other_tables db now).1, (expire_other_tables db now).2.1⟩

/-- C9: `ResumeDraft` hashes the supplied (trimmed) token and looks a draft
row up by that hash with `status = draft`: no such row gives `NotFound`, a
row with `resume_token_expiry` in the past gives `Gone`, and otherwise the
draft is returned with `resume_token_hash` and `resume_token_expiry`
stripped (the `SafeDraft` payload has no such fields). -/
theorem C9_resume_draft_cases (hash : String → String) (db : DB) (token : String)
    (now : Int) (hne : ¬ jsTrim token = "") :
    (db.applications.filter (fun a =>
        a.resume_token_hash == some (hash (jsTrim token)) && a.status == .draft) = []
        → resumeDraft hash db token now = .draftNotFound) ∧
    (∀ d, db.applications.filter (fun a =>
        a.resume_token_hash == some (hash (jsTrim token)) && a.status == .draft) = [d] →
      ((∃ e, d.resume_token_expiry = some e ∧ e < now) →
          resumeDraft hash db token now = .linkExpired) ∧
      ((∀ e, d.resume_token_expiry = some e → ¬ e < now) →
          resumeDraft hash db token now = .ok { id := d.id, status := d.status })) := by
  constructor
  · intro h
    simp only [resumeDraft]
    rw [if_neg hne, h]
  · intro d hd
    constructor
    · rintro ⟨e, he, hlt⟩
      simp only [resumeDraft]
      rw [if_neg hne, hd]
      simp [he, hlt]
    · intro hok
      simp only [resumeDraft]
      rw [if_neg hne, hd]
      cases hexp : d.resume_token_expiry with
      | none => simp [hexp]
      | some e => simp [hexp, hok e hexp]

/-- C1: a `reviewer-respond` with `accept = true` sets the application to
`under_review` as soon as its accepted-assignment count reaches 2; a decline
never changes any application's status; an invite never changes any
application's status; and an application already `under_review` stays
`under_review` through any further respond or invite. -/
theorem C1_respond_status_machine (db : DB) (aid rid rid2 : Nat) (accept : Bool)
    (now invitedAt : Int) :
    ((db.applications.find? (fun a => a.id == aid)).isSome →
      2 ≤ countAccepted ((reviewerRespond db aid (some rid) true now).2) aid →
      appStatus ((reviewerRespond db aid (some rid) true now).2) aid
        = some .under_review) ∧
    (((reviewerRespond db aid (some rid) false now).2).applications
        = db.applications) ∧
    (((inviteReviewer db aid rid2 invitedAt).2).applications = db.applications) ∧
    (appStatus db aid = some .under_review →
      appStatus ((reviewerRespond db aid (some rid) accept now).2) aid
        = some .under_review) ∧
    (appStatus db aid = some .under_review →
      appStatus ((inviteReviewer db aid rid2 invitedAt).2) aid
        = some .under_review) := by
  refine ⟨?_, ?_, ?_, ?_, ?_⟩
  · intro happ h2
    rw [reviewerRespond_p2] at h2 ⊢
    rw [if_pos rfl] at h2 ⊢
    rw [countAccepted_promote] at h2
    apply promoteUnderReview_status_of_le _ _ h2
    rw [respondUpdate_applications]
    exact happ
  · rw [reviewerRespond_p2, if_neg (by simp), respondUpdate_applications]
  · exact inviteReviewer_applications db aid rid2 invitedAt
  · intro h
    rw [reviewerRespond_p2]
    cases accept with
    | false =>
      rw [if_neg (by simp)]
      rw [appStatus_congr _ db (respondUpdate_applications db aid rid false now) aid]
      exact h
    | true =>
      rw [if_pos rfl]
      have happ1 : ((respondUpdate db aid rid true now).applications.find?
          (fun a => a.id == aid)).isSome := by
        rw [respondUpdate_applications]
        unfold appStatus at h
        cases hf : db.applications.find? (fun a => a.id == aid) with
        | none => rw [hf] at h; cases h
        | some ap => simp
      by_cases h2 : 2 ≤ countAccepted (respondUpdate db aid rid true now) aid
      · exact promoteUnderReview_status_of_le _ _ h2 happ1
      · rw [promoteUnderReview_of_lt _ _ h2]
        rw [appStatus_congr _ db (respondUpdate_applications db aid rid true now) aid]
        exact h
  · intro h
    rw [appStatus_congr _ db (inviteReviewer_applications db aid rid2 invitedAt) aid]
    exact h

/-- Concrete scenario for C1: app 1 is `pending`, reviewer 7 has accepted,
reviewer 8 now accepts, reaching the quorum of 2. -/
theorem C1_witness :
    appStatus ((reviewerRespond
      ⟨[⟨1, .pending, none, none⟩], [],
        [⟨1, 7, some .accepted, some 0, some 0⟩,
         ⟨1, 8, some .pending, some 0, none⟩], []⟩
      1 (some 8) true 10).2) 1 = some .under_review :=
  (C1_respond_status_machine
      ⟨[⟨1, .pending, none, none⟩], [],
        [⟨1, 7, some .accepted, some 0, some 0⟩,
         ⟨1, 8, some .pending, some 0, none⟩], []⟩
      1 8 9 true 10 0).1 (by decide) (by decide)

/-- C4 counterexample: app 1 exists and **no assignment at all** exists for
the (1, reviewer 7) pair, yet an authenticated respond does not fail with
NotFound — it answers 200 (`responded`) and leaves the store untouched. -/
theorem C4_counterexample :
    (reviewerRespond ⟨[⟨1, .pending, none, none⟩], [], [], []⟩ 1 (some 7) false 0).1
        = .responded false ∧
    RespondResp.status ((reviewerRespond ⟨[⟨1, .pending, none, none⟩], [], [], []⟩
        1 (some 7) false 0).1) = 200 ∧
    RespondResp.status ((reviewerRespond ⟨[⟨1, .pending, none, none⟩], [], [], []⟩
        1 (some 7) false 0).1) ≠ 404 ∧
    (reviewerRespond ⟨[⟨1, .pending, none, none⟩], [], [], []⟩ 1 (some 7) false 0).2
        = ⟨[⟨1, .pending, none, none⟩], [], [], []⟩ := by
  decide

/-- C4 (amended): when no assignment exists for the pair — pending or
otherwise — the respond handler still succeeds with 200 (its UPDATE merely
matches zero rows); no assignment row is created or changed, and with
`accept = false` the whole store is untouched. -/
theorem C4_amended_no_assignment (db : DB) (aid rid : Nat) (accept : Bool)
    (now : Int)
    (h : ∀ a ∈ db.application_reviewers,
      ¬(a.application_id = aid ∧ a.reviewer_id = rid)) :
    (reviewerRespond db aid (some rid) accept now).1 = .responded accept ∧
    RespondResp.status ((reviewerRespond db aid (some rid) accept now).1) = 200 ∧
    ((reviewerRespond db aid (some rid) accept now).2).application_reviewers
        = db.application_reviewers ∧
    (accept = false → (reviewerRespond db aid (some rid) accept now).2 = db) := by
  have hupd : respondUpdate db aid rid accept now = db := by
    unfold respondUpdate
    have hmap : db.application_reviewers.map (fun a =>
        if a.application_id == aid && a.reviewer_id == rid then
          { a with
            invite_status := some (if accept then .accepted else .rejected),
            responded_at := some now }
        else a) = db.application_reviewers := by
      apply map_eq_self_of_fix
      intro a ha
      simp [h a ha]
    rw [hmap]
  refine ⟨rfl, rfl, ?_, ?_⟩
  · rw [reviewerRespond_p2]
    cases accept with
    | false => rw [if_neg (by simp), hupd]
    | true => rw [if_pos rfl, hupd, promoteUnderReview_reviewers]
  · intro ha
    subst ha
    rw [reviewerRespond_p2, if_neg (by simp), hupd]

/-- Concrete application of the amended C4 statement. -/
theorem C4_witness :
    (reviewerRespond ⟨[⟨1, .pending, none, none⟩], [], [], []⟩ 1 (some 7) true 0).1
      = .responded true :=
  (C4_amended_no_assignment ⟨[⟨1, .pending, none, none⟩], [], [], []⟩ 1 7 true 0
    (by decide)).1

/-- C5 counterexample: an `accepted` assignment is **not** terminal under
`reviewer-respond` — the handler's UPDATE has no `pending` filter, so a later
decline by the same reviewer overwrites `accepted` with `rejected`. -/
theorem C5_counterexample :
    ((reviewerRespond ⟨[⟨1, .pending, none, none⟩], [],
        [⟨1, 7, some .accepted, some 0, some 0⟩], []⟩
        1 (some 7) false 5).2).application_reviewers
      = [⟨1, 7, some .rejected, some 0, some 5⟩] ∧
    (some InviteStatus.rejected ≠ some InviteStatus.accepted) := by
  decide

/-- C5 (amended): `accepted` and `rejected` are terminal with respect to the
expiry sweep and to invites — the sweep only rewrites `pending` rows and an
invite never modifies an existing row — but not with respect to
`reviewer-respond`, whose unconditional UPDATE overwrites them. -/
theorem C5_amended_terminal_for_sweep_and_invite (db : DB) (now invitedAt : Int)
    (aid rid : Nat) (i : Nat) (a : Assignment)
    (hget : db.application_reviewers.get? i = some a)
    (hterm : a.invite_status ≠ some .pending) :
    ((expirePendingReviewerInvites db now).2).application_reviewers.get? i
        = some a ∧
    ((inviteReviewer db aid rid invitedAt).2).application_reviewers.get? i
        = some a := by
  constructor
  · rw [expire_assignments_eq, List.get?_map, hget]
    have hexp : inviteExpired (now - REVIEWER_INVITE_EXPIRE_DAYS * msPerDay) a
        = false := by
      unfold inviteExpired
      simp [hterm]
    simp [hexp]
  · exact inviteReviewer_assignments_stable db aid rid invitedAt i a hget

/-- Concrete application of the amended C5 statement: an old `accepted` row
survives a sweep untouched. -/
theorem C5_witness :
    ((expirePendingReviewerInvites
        ⟨[], [], [⟨1, 7, some .accepted, some 0, some 0⟩], []⟩
        (10 * 86400000)).2).application_reviewers.get? 0
      = some ⟨1, 7, some .accepted, some 0, some 0⟩ :=
  (C5_amended_terminal_for_sweep_and_invite
      ⟨[], [], [⟨1, 7, some .accepted, some 0, some 0⟩], []⟩
      (10 * 86400000) 0 2 3 0 ⟨1, 7, some .accepted, some 0, some 0⟩
      (by decide) (by decide)).1

/-- C3 counterexample: app 1 is `pending` with 5 assignments; inviting the
6th distinct reviewer 7 fails **with the 500 store-error branch** (the
`check_max_reviewers` trigger aborts the insert), not with 409 Conflict; no
assignment row is created. -/
theorem C3_counterexample :
    (inviteReviewer ⟨[⟨1, .pending, none, none⟩],
        [⟨2, .reviewer⟩, ⟨3, .reviewer⟩, ⟨4, .reviewer⟩, ⟨5, .reviewer⟩,
         ⟨6, .reviewer⟩, ⟨7, .reviewer⟩],
        [⟨1, 2, some .pending, some 0, none⟩, ⟨1, 3, some .pending, some 0, none⟩,
         ⟨1, 4, some .pending, some 0, none⟩, ⟨1, 5, some .pending, some 0, none⟩,
         ⟨1, 6, some .pending, some 0, none⟩], []⟩ 1 7 100).1 = .insertFailed ∧
    InviteResp.status (inviteReviewer ⟨[⟨1, .pending, none, none⟩],
        [⟨2, .reviewer⟩, ⟨3, .reviewer⟩, ⟨4, .reviewer⟩, ⟨5, .reviewer⟩,
         ⟨6, .reviewer⟩, ⟨7, .reviewer⟩],
        [⟨1, 2, some .pending, some 0, none⟩, ⟨1, 3, some .pending, some 0, none⟩,
         ⟨1, 4, some .pending, some 0, none⟩, ⟨1, 5, some .pending, some 0, none⟩,
         ⟨1, 6, some .pending, some 0, none⟩], []⟩ 1 7 100).1 = 500 ∧
    InviteResp.status (inviteReviewer ⟨[⟨1, .pending, none, none⟩],
        [⟨2, .reviewer⟩, ⟨3, .reviewer⟩, ⟨4, .reviewer⟩, ⟨5, .reviewer⟩,
         ⟨6, .reviewer⟩, ⟨7, .reviewer⟩],
        [⟨1, 2, some .pending, some 0, none⟩, ⟨1, 3, some .pending, some 0, none⟩,
         ⟨1, 4, some .pending, some 0, none⟩, ⟨1, 5, some .pending, some 0, none⟩,
         ⟨1, 6, some .pending, some 0, none⟩], []⟩ 1 7 100).1 ≠ 409 ∧
    ((inviteReviewer ⟨[⟨1, .pending, none, none⟩],
        [⟨2, .reviewer⟩, ⟨3, .reviewer⟩, ⟨4, .reviewer⟩, ⟨5, .reviewer⟩,
         ⟨6, .reviewer⟩, ⟨7, .reviewer⟩],
        [⟨1, 2, some .pending, some 0, none⟩, ⟨1, 3, some .pending, some 0, none⟩,
         ⟨1, 4, some .pending, some 0, none⟩, ⟨1, 5, some .pending, some 0, none⟩,
         ⟨1, 6, some .pending, some 0, none⟩], []⟩ 1 7 100).2).application_reviewers
      = [⟨1, 2, some .pending, some 0, none⟩, ⟨1, 3, some .pending, some 0, none⟩,
         ⟨1, 4, some .pending, some 0, none⟩, ⟨1, 5, some .pending, some 0, none⟩,
         ⟨1, 6, some .pending, some 0, none⟩] := by
  decide

/-- C3 (amended): once an application in `pending` state already has 5
assignments, inviting another (existing, distinct) reviewer fails — the
store's max-5 trigger aborts the insert and the handler surfaces a 500
store-error response rather than a 409 Conflict — and creates no new
assignment row. -/
theorem C3_amended_quota_failure_is_500 (db : DB) (aid rid : Nat) (now : Int)
    (app : Application)
    (happ : db.applications.find? (fun a => a.id == aid) = some app)
    (hpend : app.status = .pending)
    (hrev : (db.user_profiles.find?
        (fun p => p.id == rid && p.role == .reviewer)).isSome)
    (hdup : db.application_reviewers.find?
        (fun a => a.application_id == aid && a.reviewer_id == rid) = none)
    (hquota : 5 ≤ (db.application_reviewers.filter
        (fun a => a.application_id == aid)).length) :
    inviteReviewer db aid rid now = (.insertFailed, db) ∧
    InviteResp.status (inviteReviewer db aid rid now).1 = 500 ∧
    ((inviteReviewer db aid rid now).2).application_reviewers
        = db.application_reviewers := by
  obtain ⟨p, hp⟩ := Option.isSome_iff_exists.mp hrev
  have hmain : inviteReviewer db aid rid now = (.insertFailed, db) := by
    simp [inviteReviewer, happ, hpend, hp, hdup, hquota]
  exact ⟨hmain, by rw [hmain]; rfl, by rw [hmain]⟩

/-- Concrete application of the amended C3 statement. -/
theorem C3_witness :
    InviteResp.status (inviteReviewer ⟨[⟨1, .pending, none, none⟩],
        [⟨2, .reviewer⟩, ⟨3, .reviewer⟩, ⟨4, .reviewer⟩, ⟨5, .reviewer⟩,
         ⟨6, .reviewer⟩, ⟨7, .reviewer⟩],
        [⟨1, 2, some .pending, some 10, none⟩, ⟨1, 3, some .pending, some 10, none⟩,
         ⟨1, 4, some .pending, some 10, none⟩, ⟨1, 5, some .pending, some 10, none⟩,
         ⟨1, 6, some .pending, some 10, none⟩], []⟩ 1 7 100).1 = 500 :=
  (C3_amended_quota_failure_is_500 ⟨[⟨1, .pending, none, none⟩],
        [⟨2, .reviewer⟩, ⟨3, .reviewer⟩, ⟨4, .reviewer⟩, ⟨5, .reviewer⟩,
         ⟨6, .reviewer⟩, ⟨7, .reviewer⟩],
        [⟨1, 2, some .pending, some 10, none⟩, ⟨1, 3, some .pending, some 10, none⟩,
         ⟨1, 4, some .pending, some 10, none⟩, ⟨1, 5, some .pending, some 10, none⟩,
         ⟨1, 6, some .pending, some 10, none⟩], []⟩ 1 7 100
      ⟨1, .pending, none, none⟩ (by decide) rfl (by decide) (by decide)
      (by decide)).2.1

/-- The integer range test of `scoreCheck` is exactly the `< 0 / > 10` test
on the parsed rational value. -/
theorem scoreCheck_range_cond (x : JSNum) :
    (x.num < 0 ∨ 10 * (10 : Int) ^ x.p10 < x.num) ↔
      (x.toRat < 0 ∨ 10 < x.toRat) := by
  have hd : (0 : ℚ) < ((10 ^ x.p10 : ℕ) : ℚ) := by positivity
  unfold JSNum.toRat
  constructor
  · rintro (h | h)
    · left
      rw [div_lt_iff hd, zero_mul]
      exact_mod_cast h
    · right
      rw [lt_div_iff hd]
      calc (10 : ℚ) * ((10 ^ x.p10 : ℕ) : ℚ)
            = ((10 * 10 ^ x.p10 : ℤ) : ℚ) := by push_cast; ring
        _ < (x.num : ℚ) := by exact_mod_cast h
  · rintro (h | h)
    · left
      rw [div_lt_iff hd, zero_mul] at h
      exact_mod_cast h
    · right
      rw [lt_div_iff hd] at h
      have : ((10 * 10 ^ x.p10 : ℤ) : ℚ) < (x.num : ℚ) := by
        calc ((10 * 10 ^ x.p10 : ℤ) : ℚ)
              = (10 : ℚ) * ((10 ^ x.p10 : ℕ) : ℚ) := by push_cast; ring
          _ < (x.num : ℚ) := h
      exact_mod_cast this

/-- A score that passes `scoreCheck` parses to a value inside [0, 10]. -/
theorem scoreCheck_none_range (s : String) (x : JSNum) (hn : scoreCheck s = none)
    (hp : jsParseFloat s = some x) : 0 ≤ x.toRat ∧ x.toRat ≤ 10 := by
  unfold scoreCheck at hn
  simp only [hp] at hn
  by_cases hq : x.num < 0 ∨ 10 * (10 : Int) ^ x.p10 < x.num
  · rw [if_pos hq] at hn
    cases hn
  · rw [scoreCheck_range_cond x] at hq
    push_neg at hq
    exact hq

/-- A 201 answer of the POST route pins the final state down to the plain
insert of the validated row. -/
theorem postEvaluation_created_shape (db : DB) (rid : Nat) (b : PostEvalBody)
    (hr : (postEvaluation db (some rid) b).1 = .created) :
    (postEvaluation db (some rid) b).2
      = { db with application_evaluations :=
            db.application_evaluations ++ [evalRowOf b.applicationId rid b] } := by
  simp only [postEvaluation] at hr ⊢
  cases hval : scoreValidationError (postScores b) with
  | some e =>
    rcases scoreValidationError_cases _ _ hval with h | h | h <;> subst h <;>
      rw [hval] at hr <;> simp at hr
  | none =>
    cases hasg : findAssignment db b.applicationId rid with
    | none =>
      rw [hval, hasg] at hr
      simp at hr
    | some assignment =>
      by_cases hacc : assignment.invite_status.getD .pending = .accepted
      · cases hdup : db.application_evaluations.find?
            (fun e => e.application_id == b.applicationId && e.reviewer_id == rid) with
        | some old =>
          rw [hval, hasg, hdup] at hr
          simp [hacc] at hr
        | none =>
          simp [hacc]
      · rw [hval, hasg] at hr
        by_cases hrj : assignment.invite_status.getD .pending = .rejected <;>
          simp [hacc, hrj] at hr

/-- C6 counterexample: the needScore `"1e-5"` parses to 1/100000 — a value in
[0, 10] with five decimal digits of precision, violating the at-most-2-digit
rule — yet the POST route accepts it (201) and writes the row verbatim: the
precision check only inspects the literal for a `.` and misses exponent
notation. -/
theorem C6_counterexample :
    (postEvaluation ⟨[⟨1, .pending, none, none⟩], [],
        [⟨1, 7, some .accepted, some 0, some 0⟩], []⟩ (some 7)
        ⟨1, "1e-5", "5", "5", "5", "5"⟩).1 = .created ∧
    EvalResp.status ((postEvaluation ⟨[⟨1, .pending, none, none⟩], [],
        [⟨1, 7, some .accepted, some 0, some 0⟩], []⟩ (some 7)
        ⟨1, "1e-5", "5", "5", "5", "5"⟩).1) = 201 ∧
    ((postEvaluation ⟨[⟨1, .pending, none, none⟩], [],
        [⟨1, 7, some .accepted, some 0, some 0⟩], []⟩ (some 7)
        ⟨1, "1e-5", "5", "5", "5", "5"⟩).2).application_evaluations
      = [⟨1, 7, "1e-5", "5", "5", "5", "5"⟩] ∧
    jsParseFloat "1e-5" = some ⟨1, 5⟩ ∧
    JSNum.toRat ⟨1, 5⟩ = 1 / 100000 ∧
    (0 : ℚ) ≤ JSNum.toRat ⟨1, 5⟩ ∧ JSNum.toRat ⟨1, 5⟩ ≤ 10 ∧
    ¬ atMostTwoDecimalDigits (JSNum.toRat ⟨1, 5⟩) := by
  have hval : JSNum.toRat ⟨1, 5⟩ = 1 / 100000 := by
    unfold JSNum.toRat
    norm_num
  refine ⟨by decide, by decide, by decide, by decide, hval, ?_, ?_, ?_⟩
  · rw [hval]; norm_num
  · rw [hval]; norm_num
  · rw [hval]
    unfold atMostTwoDecimalDigits
    with_unfolding_all decide

/-- C6 (amended): both evaluation routes reject — with a 400 response, before
any write — any score whose string is blank, fails to `parseFloat`, parses
outside [0, 10], or literally shows more than 2 digits after a single dot
(so `needScore = 10.555` is rejected); a validated score is stored as its
trimmed literal, never clamped or rounded.  However the non-numeric and
precision checks look only at the literal: exponent forms such as `"1e-5"`
(five decimal digits of value) pass validation. -/
theorem C6_amended_validation (db : DB) (rid aid : Nat) (b : PostEvalBody)
    (pb : PutEvalBody) (e : EvalResp)
    (h1 : scoreValidationError (postScores b) = some e)
    (h2 : scoreValidationError (putScores pb) = some e) :
    postEvaluation db (some rid) b = (e, db) ∧
    putEvaluationUpsert db (some rid) aid pb = (e, db) ∧
    EvalResp.status e = 400 ∧
    scoreCheck "10.555" = some .scoreOutOfRange ∧
    scoreCheck "9.555" = some .tooManyDecimals ∧
    (∀ s x, scoreCheck s = none → jsParseFloat s = some x →
      0 ≤ JSNum.toRat x ∧ JSNum.toRat x ≤ 10) ∧
    (∀ (db2 : DB) (rid2 : Nat) (b2 : PostEvalBody),
      (postEvaluation db2 (some rid2) b2).1 = .created →
      ((postEvaluation db2 (some rid2) b2).2).application_evaluations
        = db2.application_evaluations ++ [evalRowOf b2.applicationId rid2 b2]) := by
  refine ⟨?_, ?_, ?_, by decide, by decide,
    fun s x hn hp => scoreCheck_none_range s x hn hp, ?_⟩
  · simp [postEvaluation, h1]
  · simp [putEvaluationUpsert, h2]
  · rcases scoreValidationError_cases _ _ h1 with h | h | h <;> subst h <;> rfl
  · intro db2 rid2 b2 hr
    rw [postEvaluation_created_shape db2 rid2 b2 hr]

/-- Concrete application of the amended C6 statement: the spec's own
`needScore = 10.555` example is rejected with a 400 before any write. -/
theorem C6_witness :
    postEvaluation ⟨[], [], [], []⟩ (some 7) ⟨1, "10.555", "5", "5", "5", "5"⟩
      = (.scoreOutOfRange, ⟨[], [], [], []⟩) :=
  (C6_amended_validation ⟨[], [], [], []⟩ 7 1 ⟨1, "10.555", "5", "5", "5", "5"⟩
      ⟨"10.555", "5", "5", "5", "5"⟩ .scoreOutOfRange
      (by decide) (by decide)).1

/-- C7: on both evaluation routes, a reviewer with no assignment row, or with
an assignment whose `invite_status ?? 'pending'` is `pending` or `rejected`,
is rejected with 403 and no evaluation row is written; only `accepted`
reaches the write. -/
theorem C7_non_accepted_is_forbidden (db : DB) (rid aid : Nat) (b : PostEvalBody)
    (pb : PutEvalBody)
    (hv1 : scoreValidationError (postScores b) = none)
    (hv2 : scoreValidationError (putScores pb) = none)
    (hpost : findAssignment db b.applicationId rid = none ∨
      ∃ a, findAssignment db b.applicationId rid = some a ∧
        a.invite_status.getD .pending ≠ .accepted)
    (hput : findAssignment db aid rid = none ∨
      ∃ a, findAssignment db aid rid = some a ∧
        a.invite_status.getD .pending ≠ .accepted) :
    EvalResp.status (postEvaluation db (some rid) b).1 = 403 ∧
    (postEvaluation db (some rid) b).2 = db ∧
    EvalResp.status (putEvaluationUpsert db (some rid) aid pb).1 = 403 ∧
    (putEvaluationUpsert db (some rid) aid pb).2 = db := by
  have hpostmain : EvalResp.status (postEvaluation db (some rid) b).1 = 403 ∧
      (postEvaluation db (some rid) b).2 = db := by
    rcases hpost with hna | ⟨a, ha, hacc⟩
    · constructor <;> simp [postEvaluation, EvalResp.status, hv1, hna]
    · by_cases hrj : a.invite_status.getD .pending = .rejected <;>
        constructor <;>
        simp [postEvaluation, EvalResp.status, hv1, ha, hacc, hrj]
  have hputmain : EvalResp.status (putEvaluationUpsert db (some rid) aid pb).1
        = 403 ∧
      (putEvaluationUpsert db (some rid) aid pb).2 = db := by
    rcases hput with hna | ⟨a, ha, hacc⟩
    · constructor <;> simp [putEvaluationUpsert, EvalResp.status, hv2, hna]
    · by_cases hrj : a.invite_status.getD .pending = .rejected <;>
        constructor <;>
        simp [putEvaluationUpsert, EvalResp.status, hv2, ha, hacc, hrj]
  exact ⟨hpostmain.1, hpostmain.2, hputmain.1, hputmain.2⟩

/-- Concrete application of C7: a reviewer whose invite is `rejected` gets a
403 on the POST route. -/
theorem C7_witness :
    EvalResp.status (postEvaluation
        ⟨[], [], [⟨1, 7, some .rejected, some 0, some 0⟩], []⟩
        (some 7) ⟨1, "5", "5", "5", "5", "5"⟩).1 = 403 :=
  (C7_non_accepted_is_forbidden
      ⟨[], [], [⟨1, 7, some .rejected, some 0, some 0⟩], []⟩
      7 1 ⟨1, "5", "5", "5", "5", "5"⟩ ⟨"5", "5", "5", "5", "5"⟩
      (by decide) (by decide)
      (Or.inr ⟨⟨1, 7, some .rejected, some 0, some 0⟩, by decide, by decide⟩)
      (Or.inr ⟨⟨1, 7, some .rejected, some 0, some 0⟩, by decide, by decide⟩)).1

/-- C2 counterexample: a successful **POST** insert runs no completion check:
with A = 1 accepted reviewer and E = 1 distinct evaluation after the insert,
the condition A > 0 ∧ E ≥ A holds, yet the application's status remains
`pending` instead of being set to `evaluated`. -/
theorem C2_counterexample :
    (postEvaluation ⟨[⟨1, .pending, none, none⟩], [],
        [⟨1, 7, some .accepted, some 0, some 0⟩], []⟩ (some 7)
        ⟨1, "5", "5", "5", "5", "5"⟩).1 = .created ∧
    countAccepted ((postEvaluation ⟨[⟨1, .pending, none, none⟩], [],
        [⟨1, 7, some .accepted, some 0, some 0⟩], []⟩ (some 7)
        ⟨1, "5", "5", "5", "5", "5"⟩).2) 1 = 1 ∧
    distinctEvalReviewers ((postEvaluation ⟨[⟨1, .pending, none, none⟩], [],
        [⟨1, 7, some .accepted, some 0, some 0⟩], []⟩ (some 7)
        ⟨1, "5", "5", "5", "5", "5"⟩).2) 1 = 1 ∧
    appStatus ((postEvaluation ⟨[⟨1, .pending, none, none⟩], [],
        [⟨1, 7, some .accepted, some 0, some 0⟩], []⟩ (some 7)
        ⟨1, "5", "5", "5", "5", "5"⟩).2) 1 = some .pending ∧
    appStatus ((postEvaluation ⟨[⟨1, .pending, none, none⟩], [],
        [⟨1, 7, some .accepted, some 0, some 0⟩], []⟩ (some 7)
        ⟨1, "5", "5", "5", "5", "5"⟩).2) 1 ≠ some .evaluated := by
  decide

/-- C2 (amended): the completion check runs only on the PUT upsert route —
after each of its sub-paths (create or update), the application's status is
set to `evaluated` exactly when A > 0 and E ≥ A hold for the post-upsert
state, is left unchanged otherwise, and re-running the check once satisfied
is a no-op; the POST create route (see the counterexample) never updates the
status. -/
theorem C2_amended_put_completion (db : DB) (rid aid : Nat) (b : PutEvalBody)
    (ex : Bool)
    (happ : (db.applications.find? (fun a => a.id == aid)).isSome)
    (hr : (putEvaluationUpsert db (some rid) aid b).1 = .saved ex) :
    ((0 < countAccepted ((putEvaluationUpsert db (some rid) aid b).2) aid ∧
        countAccepted ((putEvaluationUpsert db (some rid) aid b).2) aid
          ≤ distinctEvalReviewers ((putEvaluationUpsert db (some rid) aid b).2) aid) →
      appStatus ((putEvaluationUpsert db (some rid) aid b).2) aid
        = some .evaluated) ∧
    (¬ (0 < countAccepted ((putEvaluationUpsert db (some rid) aid b).2) aid ∧
        countAccepted ((putEvaluationUpsert db (some rid) aid b).2) aid
          ≤ distinctEvalReviewers ((putEvaluationUpsert db (some rid) aid b).2) aid) →
      appStatus ((putEvaluationUpsert db (some rid) aid b).2) aid
        = appStatus db aid) ∧
    completionCheck ((putEvaluationUpsert db (some rid) aid b).2) aid
      = (putEvaluationUpsert db (some rid) aid b).2 := by
  have hshape := putUpsert_saved_shape db rid aid b ex hr
  rw [hshape]
  refine ⟨?_, ?_, completionCheck_idem _ _⟩
  · intro hc
    rw [countAccepted_completionCheck, distinctEvalReviewers_completionCheck] at hc
    apply completionCheck_status_of_cond _ _ hc
    rw [(runUpsert_tables db aid rid b).1]
    exact happ
  · intro hnc
    rw [countAccepted_completionCheck, distinctEvalReviewers_completionCheck] at hnc
    rw [completionCheck_of_not_cond _ _ hnc]
    exact appStatus_congr _ _ (runUpsert_tables db aid rid b).1 aid

/-- Concrete application of the amended C2 statement: with one accepted
reviewer, their PUT upsert flips the application to `evaluated`. -/
theorem C2_witness :
    appStatus ((putEvaluationUpsert ⟨[⟨1, .pending, none, none⟩], [],
        [⟨1, 7, some .accepted, some 0, some 0⟩], []⟩ (some 7) 1
        ⟨"5", "5", "5", "5", "5"⟩).2) 1 = some .evaluated :=
  (C2_amended_put_completion ⟨[⟨1, .pending, none, none⟩], [],
      [⟨1, 7, some .accepted, some 0, some 0⟩], []⟩ 7 1
      ⟨"5", "5", "5", "5", "5"⟩ false (by decide) (by decide)).1 (by decide)

/-- Concrete application of C9: presenting the right raw token before expiry
returns the stripped draft. -/
theorem C9_witness :
    resumeDraft (fun s => s ++ "#h")
      ⟨[⟨1, .draft, some "tok#h", some 100⟩], [], [], []⟩ "tok" 50
      = .ok ⟨1, .draft⟩ :=
  ((C9_resume_draft_cases (fun s => s ++ "#h")
      ⟨[⟨1, .draft, some "tok#h", some 100⟩], [], [], []⟩ "tok" 50
      (by decide)).2 ⟨1, .draft, some "tok#h", some 100⟩ (by decide)).2
    (fun e he => by
      injection he with he
      subst he
      decide)
